import Mathlib

/-!
Verification of the Manatan-Server reverse-proxy / protocol-bridge layer.

Shallow embedding of `src/app.rs`, `src/lib.rs`, `src/config.rs` and
`src/ffi.rs`.  Bytes are modelled as `Nat`, u16 values as `Nat` bounded by
65535, header maps as association lists or lookup functions, and the FFI
backend as an explicit oracle parameter.
-/

namespace Manatan

/-! ## WebSocket message representations (src/app.rs, lines 214-255)

`AxumMessage` embeds `axum::extract::ws::Message`: the close frame carries a
`u16` code (modelled as `Nat`) and a reason string.  `TungsteniteMessage`
embeds `tokio_tungstenite::tungstenite::protocol::Message`: the close frame
carries a `CloseCode` enum value, and there is an extra low-level `frame`
catch-all variant. -/

inductive AxumMessage where
  | text (t : String)
  | binary (b : List Nat)
  | ping (p : List Nat)
  | pong (p : List Nat)
  | close (c : Option (Nat × String))
  deriving DecidableEq, Repr

/-- The tungstenite `CloseCode` enum (external library type used by the
source's conversions): named variants for the registered codes plus the
carrier variants `reserved`, `iana`, `library`, `bad`. -/
inductive CloseCode where
  | normal | away | protocol | unsupported | status | abnormal
  | invalid | policy | size | extension | error | restart | again | tls
  | reserved (code : Nat)
  | iana (code : Nat)
  | library (code : Nat)
  | bad (code : Nat)
  deriving DecidableEq, Repr

/-- `impl From<u16> for CloseCode` from the tungstenite library. -/
def CloseCode.ofNat (code : Nat) : CloseCode :=
  if code = 1000 then .normal
  else if code = 1001 then .away
  else if code = 1002 then .protocol
  else if code = 1003 then .unsupported
  else if code = 1005 then .status
  else if code = 1006 then .abnormal
  else if code = 1007 then .invalid
  else if code = 1008 then .policy
  else if code = 1009 then .size
  else if code = 1010 then .extension
  else if code = 1011 then .error
  else if code = 1012 then .restart
  else if code = 1013 then .again
  else if code = 1015 then .tls
  else if 1 ≤ code ∧ code ≤ 999 then .bad code
  else if 1016 ≤ code ∧ code ≤ 2999 then .reserved code
  else if 3000 ≤ code ∧ code ≤ 3999 then .iana code
  else if 4000 ≤ code ∧ code ≤ 4999 then .library code
  else .bad code

/-- `impl From<CloseCode> for u16` from the tungstenite library. -/
def CloseCode.toNat : CloseCode → Nat
  | .normal => 1000
  | .away => 1001
  | .protocol => 1002
  | .unsupported => 1003
  | .status => 1005
  | .abnormal => 1006
  | .invalid => 1007
  | .policy => 1008
  | .size => 1009
  | .extension => 1010
  | .error => 1011
  | .restart => 1012
  | .again => 1013
  | .tls => 1015
  | .reserved code => code
  | .iana code => code
  | .library code => code
  | .bad code => code

inductive TungsteniteMessage where
  | text (t : String)
  | binary (b : List Nat)
  | ping (p : List Nat)
  | pong (p : List Nat)
  | close (c : Option (CloseCode × String))
  | frame (raw : List Nat)
  deriving DecidableEq, Repr

/-- `axum_to_tungstenite` (src/app.rs lines 214-228): `Text`, `Binary`,
`Ping`, `Pong` carry their payloads across; a close frame's `u16` code is
converted with `CloseCode::from` and the reason copied via
`to_string().into()`. -/
def axum_to_tungstenite : AxumMessage → Option TungsteniteMessage
  | .text t => some (.text t)
  | .binary b => some (.binary b)
  | .ping p => some (.ping p)
  | .pong p => some (.pong p)
  | .close c =>
      some (.close (c.map fun cf => (CloseCode.ofNat cf.1, cf.2)))

/-- `tungstenite_to_axum` (src/app.rs lines 230-245): the inverse direction;
a close frame's `CloseCode` is converted back with `u16::from`, and the
low-level `Frame` catch-all becomes `Binary(Bytes::new())`, an empty binary
message. -/
def tungstenite_to_axum : TungsteniteMessage → AxumMessage
  | .text t => .text t
  | .binary b => .binary b
  | .ping p => .ping p
  | .pong p => .pong p
  | .close c => .close (c.map fun cf => (cf.1.toNat, cf.2))
  | .frame _ => .binary []

/-- Whether a tungstenite message is the low-level `Frame` catch-all. -/
def TungsteniteMessage.isFrame : TungsteniteMessage → Bool
  | .frame _ => true
  | _ => false

/-- Two tungstenite messages carry the same wire content: same kind, same
payload, and for a close frame the same numeric close code and the same
reason text. -/
def sameWire : TungsteniteMessage → TungsteniteMessage → Bool
  | .text t, .text t2 => t = t2
  | .binary b, .binary b2 => b = b2
  | .ping p, .ping p2 => p = p2
  | .pong p, .pong p2 => p = p2
  | .close none, .close none => true
  | .close (some (c, r)), .close (some (c2, r2)) => c.toNat = c2.toNat ∧ r = r2
  | .frame r, .frame r2 => r = r2
  | _, _ => false

/-! ## Backend WebSocket URL (src/app.rs, lines 247-255) -/

/-- Rust's `str::starts_with` on strings, embedded as a character-wise
test of the pattern against the front of the string (for ASCII patterns
the byte-prefix test of Rust and the character-prefix test agree). -/
def listIsPrefix : List Char → List Char → Bool
  | [], _ => true
  | _ :: _, [] => false
  | a :: as, b :: bs => a = b && listIsPrefix as bs

def rustStartsWith (s pat : String) : Bool :=
  listIsPrefix pat.data s.data

/-- `backend_ws_url`: translate the backend base URL scheme for WebSocket
dialing.  `strip_prefix` is embedded as a starts-with test followed by
dropping the pattern's length in characters (the patterns are ASCII). -/
def backend_ws_url (base : String) : String :=
  if rustStartsWith base "https://" then "wss://" ++ (base.drop 8)
  else if rustStartsWith base "http://" then "ws://" ++ (base.drop 7)
  else "ws://" ++ base

/-! ## HTTP proxy (src/app.rs, lines 165-212)

A request is modelled by its method, its path-and-query string (the
`path_and_query().map(as_str).unwrap_or(path)` expression of the source:
for an HTTP request the URI always has a path, so we carry the resulting
string directly), its headers in iteration order, and its body as a byte
sequence (the source streams the body chunk-by-chunk; byte-for-byte
content is what we model). -/

structure HttpRequest where
  method : String
  pathQuery : String
  headers : List (String × String)
  body : List Nat
  deriving DecidableEq, Repr

/-- The request handed to the backend HTTP client (`reqwest`): the method,
the fully built target URL, the headers accumulated on the builder, and the
streamed body. -/
structure ForwardedRequest where
  method : String
  url : String
  headers : List (String × String)
  body : List Nat
  deriving DecidableEq, Repr

structure BackendResponse where
  status : Nat
  headers : List (String × String)
  body : List Nat
  deriving DecidableEq, Repr

structure HttpResponse where
  status : Nat
  headers : List (String × String)
  body : List Nat
  deriving DecidableEq, Repr

/-- A backend send outcome: `reqwest`'s `builder.send().await` either yields
a response or fails with a connection error (timeout, refused, reset, ...),
which the model keeps opaque. -/
inductive ConnError where
  | timeout | refused | reset | other
  deriving DecidableEq, Repr

/-- `proxy_request` (src/app.rs lines 165-212), with the single network
send modelled by the oracle `send` and returned alongside the response as
the list of forward attempts actually made.  The header loop is embedded
as a fold that skips the `host` header.  The `unwrap_or_else` fallback on
`response_builder.body(..)` cannot fire in this model because the response
headers come from an already-parsed backend response, so the success arm
builds the response directly. -/
def proxy_request (send : ForwardedRequest → Except ConnError BackendResponse)
    (req : HttpRequest) (baseUrl : String) (stripPfx : String) :
    HttpResponse × List ForwardedRequest :=
  let pathQuery := req.pathQuery
  let targetPath :=
    if stripPfx ≠ "" ∧ rustStartsWith pathQuery stripPfx then
      pathQuery.drop stripPfx.length
    else pathQuery
  let targetUrl := baseUrl ++ targetPath
  let builderHeaders :=
    req.headers.foldl
      (fun acc kv => if kv.1 ≠ "host" then acc ++ [kv] else acc) []
  let fwd : ForwardedRequest :=
    { method := req.method, url := targetUrl,
      headers := builderHeaders, body := req.body }
  match send fwd with
  | .ok resp =>
      ({ status := resp.status, headers := resp.headers, body := resp.body },
       [fwd])
  | .error _ =>
      ({ status := 502, headers := [], body := [] }, [fwd])

/-- ASCII lower-casing of one character (Rust `u8::to_ascii_lowercase`
lifted to the characters of a header value). -/
def asciiLower (c : Char) : Char :=
  if 'A' ≤ c ∧ c ≤ 'Z' then Char.ofNat (c.toNat + 32) else c

/-- Rust `str::eq_ignore_ascii_case`: equality after ASCII lower-casing
each character. -/
def eqIgnoreAsciiCase (a b : String) : Bool :=
  a.data.map asciiLower = b.data.map asciiLower

/-- Whitespace as trimmed by Rust `str::trim` restricted to characters
that survive `HeaderValue::to_str` (visible ASCII, space, tab); on that
domain Rust's Unicode whitespace class and this ASCII class agree. -/
def isWsChar (c : Char) : Bool :=
  c = ' ' || c = '\t' || c = '\n' || c = '\r'

/-- Rust `str::trim` at character level: drop whitespace from both ends. -/
def rustTrim (s : String) : String :=
  ⟨((s.data.dropWhile isWsChar).reverse.dropWhile isWsChar).reverse⟩

/-- Rust `str::split(',')` at character level: the comma-separated pieces
in order; the empty string yields one empty piece, like Rust. -/
def splitOnCommaAux : List Char → List Char → List (List Char)
  | [], acc => [acc.reverse]
  | c :: cs, acc =>
      if c = ',' then acc.reverse :: splitOnCommaAux cs []
      else splitOnCommaAux cs (c :: acc)

def rustSplitComma (s : String) : List String :=
  (splitOnCommaAux s.data []).map fun l => ⟨l⟩

/-- First-match header lookup on the association list. -/
def headerGet (headers : List (String × String)) (name : String) :
    Option String :=
  (headers.find? (fun kv => kv.1 = name)).map (·.2)

/-- The upgrade test of `proxy_handler` (src/app.rs lines 83-88). -/
def is_ws_request (headers : List (String × String)) : Bool :=
  match headerGet headers "upgrade" with
  | some v => eqIgnoreAsciiCase v "websocket"
  | none => false

/-- Subprotocol parsing of `proxy_handler` (src/app.rs lines 99-104):
split the `sec-websocket-protocol` value on commas and trim each entry;
no header means no protocols. -/
def ws_protocols (headers : List (String × String)) : List String :=
  match headerGet headers "sec-websocket-protocol" with
  | some v => (rustSplitComma v).map rustTrim
  | none => []

/-- What `proxy_handler` (src/app.rs lines 81-119) does with a request:
an upgrade request yields a WebSocket bridge action carrying the offered
subprotocols, the backend dial URL and the inbound headers; anything else
is forwarded over HTTP with an empty strip prefix. -/
inductive HandlerAction where
  | ws (protocols : List String) (backendUrl : String)
      (headers : List (String × String))
  | http (resp : HttpResponse) (sends : List ForwardedRequest)
  deriving DecidableEq, Repr

def proxy_handler (send : ForwardedRequest → Except ConnError BackendResponse)
    (backendUrl : String) (req : HttpRequest) : HandlerAction :=
  if is_ws_request req.headers then
    let backendWs := backend_ws_url backendUrl
    .ws (ws_protocols req.headers) (backendWs ++ req.pathQuery) req.headers
  else
    let out := proxy_request send req backendUrl ""
    .http out.1 out.2

/-- The forwarded request that `proxy_request` with an empty strip prefix
sends for a given inbound request: same method and body, non-`host` headers,
target URL = base followed by the path-and-query. -/
def forwardedOf (req : HttpRequest) (baseUrl : String) : ForwardedRequest :=
  { method := req.method
    url := baseUrl ++ req.pathQuery
    headers := req.headers.filter (fun kv => kv.1 ≠ "host")
    body := req.body }

/-! ## Backend WebSocket dial headers (src/app.rs, lines 121-139)

Header maps on the backend handshake request are modelled as lookup
functions `String → Option String`; `into_client_request` produces a base
request whose headers are a parameter, and the source's loop inserts each
allow-listed inbound header that is present. -/

def wsAllowedHeaderNames : List String :=
  ["cookie", "authorization", "user-agent", "sec-websocket-protocol",
   "origin"]

/-- `HeaderMap::insert`: replace the value at one name. -/
def insertHeader (req : String → Option String) (name value : String) :
    String → Option String :=
  fun n => if n = name then some value else req n

/-- The header-copy loop of `handle_socket` over an arbitrary name list:
for each name in order, insert the inbound value when present. -/
def copyHeadersFold (names : List String) (inbound : String → Option String)
    (base : String → Option String) : String → Option String :=
  names.foldl
    (fun req name =>
      match inbound name with
      | some value => insertHeader req name value
      | none => req)
    base

/-- The header-copy loop of `handle_socket` (src/app.rs lines 129-139):
for each allow-listed name, insert the inbound value when present. -/
def copy_ws_headers (inbound : String → Option String)
    (base : String → Option String) : String → Option String :=
  copyHeadersFold wsAllowedHeaderNames inbound base

/-! ## Backend handle lifecycle (src/app.rs, lines 56-79)

The raw `*mut ManatanServerHandle` is modelled as `Option Nat`: `none` is
the null pointer, `some h` a non-null handle value.  `EmbeddedServer::drop`
emits the `manatan_server_stop` calls it makes (as the list of handles it
stops) and returns the post-state; the `Arc` holding the server is modelled
by its strong count. -/

structure EmbeddedServer where
  handle : Option Nat
  deriving DecidableEq, Repr

/-- `impl Drop for EmbeddedServer` (src/app.rs lines 72-79): stop only a
non-null handle, then null the pointer. -/
def dropEmbeddedServer (s : EmbeddedServer) : List Nat × EmbeddedServer :=
  match s.handle with
  | some h => ([h], { handle := none })
  | none => ([], { handle := none })

/-- The `Arc<EmbeddedServer>` of `AppState`: strong count plus the inner
server.  `AppState` is `Clone`, so the count is the number of live
`AppState` values sharing the server. -/
structure ArcServer where
  refs : Nat
  inner : EmbeddedServer
  deriving DecidableEq, Repr

/-- Releasing one `Arc` reference: the inner destructor runs exactly when
the last reference goes away. -/
def releaseArc (a : ArcServer) : List Nat × Option ArcServer :=
  if a.refs ≤ 1 then ((dropEmbeddedServer a.inner).1, none)
  else ([], some { a with refs := a.refs - 1 })

/-- Stop calls emitted by `k` successive reference releases. -/
def releaseArcTimes (a : ArcServer) : Nat → List Nat
  | 0 => []
  | k + 1 =>
      match releaseArc a with
      | (out, some a2) => out ++ releaseArcTimes a2 k
      | (out, none) => out

/-- The shared proxy state (src/app.rs lines 24-30): configuration and
backend URL, plus the reference-counted embedded server.  The HTTP client
carries no observable state in this model. -/
structure AppState where
  backend_url : String
  server : ArcServer
  deriving DecidableEq, Repr

/-- `new_state` (src/app.rs lines 56-63): wrap the raw handle in a fresh
`Arc` with one reference. -/
def new_state (backendUrl : String) (handle : Option Nat) : AppState :=
  { backend_url := backendUrl
    server := { refs := 1, inner := { handle := handle } } }

/-! ## Configuration and state construction (src/config.rs, src/lib.rs) -/

structure Config where
  host : String
  port : Nat
  java_runtime_url : String
  webview_enabled : Bool
  aidoku_index_url : String
  aidoku_enabled : Bool
  aidoku_cache_path : String
  db_path : String
  migrate_path : Option String
  tracker_remote_search : Bool
  tracker_search_ttl_seconds : Int
  downloads_path : String
  local_manga_path : String
  local_anime_path : String
  deriving DecidableEq, Repr

/-- Environment overrides read by `build_state` (src/lib.rs lines 24-29):
`MANATAN_BACKEND_HOST` and `MANATAN_BACKEND_PORT` (the latter already
parsed as a `u16`, `none` when absent or unparsable). -/
structure BackendEnv where
  backendHost : Option String
  backendPort : Option Nat
  deriving DecidableEq, Repr

/-- A C string is modelled by its character content; `to_cstring` either
fails on an embedded NUL or preserves the whole string.  A NUL byte occurs
in the UTF-8 encoding exactly when the character U+0000 occurs. -/
def hasNulByte (s : String) : Bool :=
  s.data.any (fun c => c.toNat = 0)

/-- `to_cstring` (src/lib.rs lines 75-77): `CString::new` fails exactly
when the string contains a NUL byte; otherwise the full string is kept. -/
def to_cstring (value : String) (label : String) : Except String String :=
  if hasNulByte value then .error (label ++ " contains NUL bytes")
  else .ok value

/-- The `ManatanServerConfig` record passed to `manatan_server_start`
(src/ffi.rs lines 3-19), with C strings as the strings they point to and
the optional migrate path as `Option`. -/
structure FfiServerConfig where
  host : String
  port : Nat
  java_runtime_url : String
  webview_enabled : Nat
  aidoku_index_url : String
  aidoku_enabled : Nat
  aidoku_cache_path : String
  db_path : String
  migrate_path : Option String
  tracker_remote_search : Nat
  tracker_search_ttl_seconds : Int
  downloads_path : String
  local_manga_path : String
  local_anime_path : String
  deriving DecidableEq, Repr

/-- `u16::saturating_add(1)` on the listen port (src/lib.rs line 29). -/
def saturating_add_one_u16 (p : Nat) : Nat :=
  min (p + 1) 65535

/-- The backend host resolved by `build_state` (src/lib.rs lines 24-25). -/
def resolvedBackendHost (env : BackendEnv) : String :=
  env.backendHost.getD "127.0.0.1"

/-- The backend port resolved by `build_state` (src/lib.rs lines 26-29). -/
def resolvedBackendPort (env : BackendEnv) (config : Config) : Nat :=
  env.backendPort.getD (saturating_add_one_u16 config.port)

/-- The backend base URL built by `build_state` (src/lib.rs line 31). -/
def resolvedBackendUrl (env : BackendEnv) (config : Config) : String :=
  "http://" ++ resolvedBackendHost env ++ ":" ++
    toString (resolvedBackendPort env config)

/-- The pure front half of `build_state` (src/lib.rs lines 24-65): every
string conversion, in source order, before `manatan_server_start` is
reached.  Produces the fully populated FFI configuration or the first
conversion error. -/
def prepare_ffi_config (env : BackendEnv) (config : Config) :
    Except String FfiServerConfig := do
  let backendHost := resolvedBackendHost env
  let backendPort := resolvedBackendPort env config
  let host ← to_cstring backendHost "backend_host"
  let javaRuntimeUrl ← to_cstring config.java_runtime_url "java_runtime_url"
  let aidokuIndexUrl ← to_cstring config.aidoku_index_url "aidoku_index_url"
  let aidokuCachePath ← to_cstring config.aidoku_cache_path "aidoku_cache_path"
  let dbPath ← to_cstring config.db_path "db_path"
  let downloadsPath ← to_cstring config.downloads_path "downloads_path"
  let localMangaPath ← to_cstring config.local_manga_path "local_manga_path"
  let localAnimePath ← to_cstring config.local_anime_path "local_anime_path"
  let migratePath ← match config.migrate_path with
    | some value =>
        if value ≠ "" then do
          let m ← to_cstring value "migrate_path"
          pure (some m)
        else pure none
    | none => pure (none : Option String)
  pure
    { host, port := backendPort, java_runtime_url := javaRuntimeUrl,
      webview_enabled := if config.webview_enabled then 1 else 0,
      aidoku_index_url := aidokuIndexUrl,
      aidoku_enabled := if config.aidoku_enabled then 1 else 0,
      aidoku_cache_path := aidokuCachePath, db_path := dbPath,
      migrate_path := migratePath,
      tracker_remote_search := if config.tracker_remote_search then 1 else 0,
      tracker_search_ttl_seconds := config.tracker_search_ttl_seconds,
      downloads_path := downloadsPath, local_manga_path := localMangaPath,
      local_anime_path := localAnimePath }

/-- `build_state` (src/lib.rs lines 23-73): run the pure preparation, then
invoke the backend start entry point (the oracle `start`, returning `none`
for a null handle) and wrap the non-null handle in a fresh state. -/
def build_state (start : FfiServerConfig → Option Nat)
    (env : BackendEnv) (config : Config) : Except String AppState := do
  let ffiConfig ← prepare_ffi_config env config
  match start ffiConfig with
  | none => .error "manatan_server_start failed"
  | some handle => pure (new_state (resolvedBackendUrl env config) (some handle))

/-! ## Helper lemmas -/

theorem closeCode_toNat_ofNat (code : Nat) :
    (CloseCode.ofNat code).toNat = code := by
  unfold CloseCode.ofNat
  by_cases h1 : code = 1000
  · simp [h1, CloseCode.toNat]
  rw [if_neg h1]
  by_cases h2 : code = 1001
  · simp [h2, CloseCode.toNat]
  rw [if_neg h2]
  by_cases h3 : code = 1002
  · simp [h3, CloseCode.toNat]
  rw [if_neg h3]
  by_cases h4 : code = 1003
  · simp [h4, CloseCode.toNat]
  rw [if_neg h4]
  by_cases h5 : code = 1005
  · simp [h5, CloseCode.toNat]
  rw [if_neg h5]
  by_cases h6 : code = 1006
  · simp [h6, CloseCode.toNat]
  rw [if_neg h6]
  by_cases h7 : code = 1007
  · simp [h7, CloseCode.toNat]
  rw [if_neg h7]
  by_cases h8 : code = 1008
  · simp [h8, CloseCode.toNat]
  rw [if_neg h8]
  by_cases h9 : code = 1009
  · simp [h9, CloseCode.toNat]
  rw [if_neg h9]
  by_cases h10 : code = 1010
  · simp [h10, CloseCode.toNat]
  rw [if_neg h10]
  by_cases h11 : code = 1011
  · simp [h11, CloseCode.toNat]
  rw [if_neg h11]
  by_cases h12 : code = 1012
  · simp [h12, CloseCode.toNat]
  rw [if_neg h12]
  by_cases h13 : code = 1013
  · simp [h13, CloseCode.toNat]
  rw [if_neg h13]
  by_cases h14 : code = 1015
  · simp [h14, CloseCode.toNat]
  rw [if_neg h14]
  by_cases h15 : 1 ≤ code ∧ code ≤ 999
  · simp [h15, CloseCode.toNat]
  rw [if_neg h15]
  by_cases h16 : 1016 ≤ code ∧ code ≤ 2999
  · simp [h16, CloseCode.toNat]
  rw [if_neg h16]
  by_cases h17 : 3000 ≤ code ∧ code ≤ 3999
  · simp [h17, CloseCode.toNat]
  rw [if_neg h17]
  by_cases h18 : 4000 ≤ code ∧ code ≤ 4999
  · simp [h18, CloseCode.toNat]
  rw [if_neg h18]
  rfl

theorem listIsPrefix_iff (p l : List Char) :
    listIsPrefix p l = true ↔ ∃ t, l = p ++ t := by
  induction p generalizing l with
  | nil => simp [listIsPrefix]
  | cons a as ih =>
      cases l with
      | nil => simp [listIsPrefix]
      | cons b bs =>
          simp only [listIsPrefix, Bool.and_eq_true, decide_eq_true_eq, ih,
            List.cons_append, List.cons.injEq]
          constructor
          · rintro ⟨rfl, t, rfl⟩; exact ⟨t, rfl, rfl⟩
          · rintro ⟨t, rfl, rfl⟩; exact ⟨rfl, t, rfl⟩

theorem foldl_skip_host (l : List (String × String))
    (acc : List (String × String)) :
    l.foldl (fun acc kv => if kv.1 ≠ "host" then acc ++ [kv] else acc) acc =
      acc ++ l.filter (fun kv => kv.1 ≠ "host") := by
  induction l generalizing acc with
  | nil => simp
  | cons kv rest ih =>
      rw [List.foldl_cons, List.filter_cons]
      by_cases h : kv.1 ≠ "host"
      · rw [if_pos h, ih]; simp [h]
      · rw [if_neg h, ih]; simp [h]

theorem proxy_request_empty_pfx
    (send : ForwardedRequest → Except ConnError BackendResponse)
    (req : HttpRequest) (baseUrl : String) :
    proxy_request send req baseUrl "" =
      match send (forwardedOf req baseUrl) with
      | .ok resp =>
          ({ status := resp.status, headers := resp.headers,
             body := resp.body }, [forwardedOf req baseUrl])
      | .error _ =>
          ({ status := 502, headers := [], body := [] },
           [forwardedOf req baseUrl]) := by
  unfold proxy_request forwardedOf
  simp only [foldl_skip_host, List.nil_append, ne_eq, not_true_eq_false,
    false_and, if_false]

theorem http_prefix_not_https (s : String)
    (h : rustStartsWith s "http://" = true) :
    rustStartsWith s "https://" = false := by
  by_contra hc
  rw [Bool.not_eq_false, rustStartsWith, listIsPrefix_iff] at hc
  rw [rustStartsWith, listIsPrefix_iff] at h
  obtain ⟨t1, h1⟩ := h
  obtain ⟨t2, h2⟩ := hc
  rw [h1] at h2
  have h3 : ('h' :: 't' :: 't' :: 'p' :: ':' :: '/' :: '/' ::
        ([] : List Char)) ++ t1 =
      ('h' :: 't' :: 't' :: 'p' :: 's' :: ':' :: '/' :: '/' :: []) ++ t2 :=
    h2
  simp at h3

theorem copyHeadersFold_not_mem (names : List String)
    (inbound base : String → Option String) (name : String)
    (h : name ∉ names) :
    copyHeadersFold names inbound base name = base name := by
  induction names generalizing base with
  | nil => rfl
  | cons a as ih =>
      simp only [List.mem_cons, not_or] at h
      unfold copyHeadersFold at ih ⊢
      rw [List.foldl_cons]
      cases ha : inbound a
      · exact ih base h.2
      · rw [ih _ h.2]
        simp [insertHeader, h.1]

theorem copyHeadersFold_cons (a : String) (as : List String)
    (inbound base : String → Option String) :
    copyHeadersFold (a :: as) inbound base =
      copyHeadersFold as inbound
        (match inbound a with
         | some v => insertHeader base a v
         | none => base) := rfl

theorem copyHeadersFold_mem (names : List String)
    (inbound base : String → Option String) (name : String)
    (hmem : name ∈ names) (hnd : names.Nodup) :
    copyHeadersFold names inbound base name =
      match inbound name with
      | some v => some v
      | none => base name := by
  induction names generalizing base with
  | nil => simp at hmem
  | cons a as ih =>
      rw [List.nodup_cons] at hnd
      rw [copyHeadersFold_cons]
      rcases List.mem_cons.mp hmem with rfl | hmem2
      · rw [copyHeadersFold_not_mem as inbound _ name hnd.1]
        cases ha : inbound name <;> simp [insertHeader]
      · have hne : name ≠ a := fun hEq => hnd.1 (hEq ▸ hmem2)
        rw [ih _ hmem2 hnd.2]
        cases ha : inbound a
        · rfl
        · cases hb : inbound name <;> simp [insertHeader, hne]

theorem releaseArcTimes_none (n k : Nat) :
    releaseArcTimes { refs := n, inner := { handle := none } } k = [] := by
  induction k generalizing n with
  | zero => rfl
  | succ k ih =>
      unfold releaseArcTimes releaseArc
      by_cases h : n ≤ 1
      · simp [h, dropEmbeddedServer]
      · simp [h, dropEmbeddedServer, ih]

theorem releaseArcTimes_early (h n k : Nat) (hk : k < n) :
    releaseArcTimes { refs := n, inner := { handle := some h } } k = [] := by
  induction k generalizing n with
  | zero => rfl
  | succ k ih =>
      unfold releaseArcTimes releaseArc
      have hn : ¬n ≤ 1 := by omega
      simp only [hn, if_false]
      exact ih (n - 1) (by omega)

theorem releaseArcTimes_full (h n k : Nat) (hn : 1 ≤ n) (hk : n ≤ k) :
    releaseArcTimes { refs := n, inner := { handle := some h } } k = [h] := by
  induction k generalizing n with
  | zero => omega
  | succ k ih =>
      unfold releaseArcTimes releaseArc
      by_cases h1 : n ≤ 1
      · simp [h1, dropEmbeddedServer]
      · simp only [h1, if_false]
        exact ih (n - 1) (by omega) (by omega)

theorem to_cstring_eq_ok (value label c : String) :
    to_cstring value label = .ok c ↔
      (hasNulByte value = false ∧ c = value) := by
  unfold to_cstring
  split
  · simp_all
  · rename_i hn
    simp only [Except.ok.injEq]
    constructor
    · intro hv
      exact ⟨by simpa using hn, hv.symm⟩
    · intro hv
      exact hv.2.symm

set_option maxRecDepth 4000 in
theorem prepare_ok_no_nul (env : BackendEnv) (config : Config)
    (fc : FfiServerConfig) (h : prepare_ffi_config env config = .ok fc) :
    hasNulByte (resolvedBackendHost env) = false ∧
    hasNulByte config.java_runtime_url = false ∧
    hasNulByte config.aidoku_index_url = false ∧
    hasNulByte config.aidoku_cache_path = false ∧
    hasNulByte config.db_path = false ∧
    hasNulByte config.downloads_path = false ∧
    hasNulByte config.local_manga_path = false ∧
    hasNulByte config.local_anime_path = false ∧
    (∀ m, config.migrate_path = some m → m ≠ "" → hasNulByte m = false) := by
  unfold prepare_ffi_config at h
  simp only [bind, Except.bind, pure, Except.pure, Except.map] at h
  repeat' split at h
  all_goals try injection h with h
  all_goals try subst h
  all_goals simp_all [to_cstring_eq_ok]

theorem prepare_ok_port (env : BackendEnv) (config : Config)
    (fc : FfiServerConfig) (h : prepare_ffi_config env config = .ok fc) :
    fc.port = resolvedBackendPort env config := by
  unfold prepare_ffi_config at h
  simp only [bind, Except.bind, pure, Except.pure, Except.map] at h
  repeat' split at h
  all_goals try injection h with h
  all_goals try subst h
  all_goals simp_all [to_cstring_eq_ok]

/-! ## Claim theorems -/

/-- C1: for every non-upgrade HTTP request, the proxy (`proxy_request` as
invoked by `proxy_handler`, with an empty strip prefix) forwards the
request's method, every request header except `host`, and the body
byte-for-byte to the URL formed by appending the request's path-and-query
to the backend base URL, and on a successful backend response returns the
backend's status code and every response header byte-for-byte. -/
theorem proxy_forwards_request_and_response
    (send : ForwardedRequest → Except ConnError BackendResponse)
    (req : HttpRequest) (baseUrl : String) (resp : BackendResponse)
    (hws : is_ws_request req.headers = false)
    (hok : send (forwardedOf req baseUrl) = .ok resp) :
    proxy_handler send baseUrl req =
      .http { status := resp.status, headers := resp.headers,
              body := resp.body } [forwardedOf req baseUrl] ∧
    (forwardedOf req baseUrl).method = req.method ∧
    (forwardedOf req baseUrl).headers =
      req.headers.filter (fun kv => kv.1 ≠ "host") ∧
    (forwardedOf req baseUrl).body = req.body ∧
    (forwardedOf req baseUrl).url = baseUrl ++ req.pathQuery := by
  refine ⟨?_, rfl, rfl, rfl, rfl⟩
  unfold proxy_handler
  rw [hws]
  simp only [Bool.false_eq_true, if_false]
  rw [proxy_request_empty_pfx, hok]

theorem proxy_forwards_request_and_response_witness :
    proxy_handler
      (fun _ => Except.ok ⟨200, [("content-type", "text/plain")], [111, 107]⟩)
      "http://127.0.0.1:4569"
      ⟨"GET", "/health", [("host", "example.test"), ("accept", "anything")],
        [1, 2, 3]⟩ =
      .http ⟨200, [("content-type", "text/plain")], [111, 107]⟩
        [forwardedOf
          ⟨"GET", "/health", [("host", "example.test"), ("accept", "anything")],
            [1, 2, 3]⟩
          "http://127.0.0.1:4569"] :=
  (proxy_forwards_request_and_response _ _ _ _ (by decide) rfl).1

/-- C2: for every HTTP request whose send to the backend fails with a
connection error, `proxy_request` returns status exactly 502 with an empty
body (and no headers), and the forward is attempted exactly once — never
retried. -/
theorem backend_connection_failure_yields_502_without_retry
    (send : ForwardedRequest → Except ConnError BackendResponse)
    (req : HttpRequest) (baseUrl : String) (e : ConnError)
    (herr : send (forwardedOf req baseUrl) = .error e) :
    proxy_request send req baseUrl "" =
      ({ status := 502, headers := [], body := [] },
       [forwardedOf req baseUrl]) := by
  rw [proxy_request_empty_pfx, herr]

theorem backend_connection_failure_yields_502_without_retry_witness :
    proxy_request (fun _ => Except.error ConnError.refused)
      ⟨"GET", "/api/v1", [], []⟩ "http://127.0.0.1:4569" "" =
      ({ status := 502, headers := [], body := [] },
       [forwardedOf ⟨"GET", "/api/v1", [], []⟩ "http://127.0.0.1:4569"]) :=
  backend_connection_failure_yields_502_without_retry _ _ _
    ConnError.refused rfl

/-- C9: every raw low-level frame received on the backend leg (the
tungstenite `Frame` catch-all) is translated to an empty binary client
message rather than dropped. -/
theorem raw_frame_translates_to_empty_binary (raw : List Nat) :
    tungstenite_to_axum (.frame raw) = .binary [] := rfl

/-- C10: a backend base URL starting with neither `http://` nor `https://`
is dialed as `ws://` followed by the base unchanged — silently defaulted
to the insecure WebSocket scheme rather than rejected. -/
theorem schemeless_base_dialed_as_ws (base : String)
    (h1 : rustStartsWith base "http://" = false)
    (h2 : rustStartsWith base "https://" = false) :
    backend_ws_url base = "ws://" ++ base := by
  unfold backend_ws_url
  rw [h1, h2]
  simp

theorem schemeless_base_dialed_as_ws_witness :
    backend_ws_url "127.0.0.1:4569" = "ws://127.0.0.1:4569" := by
  rw [schemeless_base_dialed_as_ws "127.0.0.1:4569" (by decide) (by decide)]
  rfl

/-- C3: translating a WebSocket message of kind text, binary, ping, pong
or close from the client representation to the backend representation and
back, or in the opposite direction, yields a message of the same kind with
an identical payload; a close frame's numeric close code and reason text
are unchanged by the round trip. -/
theorem ws_message_translation_roundtrip :
    (∀ m : AxumMessage,
      (axum_to_tungstenite m).map tungstenite_to_axum = some m) ∧
    (∀ t : TungsteniteMessage, t.isFrame = false →
      ∃ t2, axum_to_tungstenite (tungstenite_to_axum t) = some t2 ∧
        sameWire t t2 = true) := by
  constructor
  · intro m
    cases m with
    | text t => rfl
    | binary b => rfl
    | ping p => rfl
    | pong p => rfl
    | close c =>
        rcases c with _ | ⟨code, r⟩
        · rfl
        · simp [axum_to_tungstenite, tungstenite_to_axum,
            closeCode_toNat_ofNat]
  · intro t ht
    cases t with
    | text a => exact ⟨.text a, rfl, by simp [sameWire]⟩
    | binary b => exact ⟨.binary b, rfl, by simp [sameWire]⟩
    | ping p => exact ⟨.ping p, rfl, by simp [sameWire]⟩
    | pong p => exact ⟨.pong p, rfl, by simp [sameWire]⟩
    | close c =>
        rcases c with _ | ⟨code, r⟩
        · exact ⟨.close none, rfl, rfl⟩
        · refine ⟨.close (some (CloseCode.ofNat code.toNat, r)), rfl, ?_⟩
          simp [sameWire, closeCode_toNat_ofNat]
    | frame raw => simp [TungsteniteMessage.isFrame] at ht

theorem ws_message_translation_roundtrip_witness :
    (axum_to_tungstenite (tungstenite_to_axum
        (TungsteniteMessage.close (some (CloseCode.bad 1000, "bye"))))).isSome
      = true := by
  obtain ⟨t2, ht, -⟩ :=
    ws_message_translation_roundtrip.2
      (TungsteniteMessage.close (some (CloseCode.bad 1000, "bye"))) rfl
  rw [ht]
  rfl

/-- C4: for every WebSocket upgrade request, `proxy_handler` offers exactly
the subprotocols parsed from the `sec-websocket-protocol` header as a
comma-separated, entry-trimmed list, and dials the backend at the base URL
with its scheme translated http to ws and https to wss, with the inbound
path-and-query appended unchanged. -/
theorem ws_upgrade_protocols_and_backend_dial
    (send : ForwardedRequest → Except ConnError BackendResponse)
    (backendUrl : String) (req : HttpRequest)
    (hws : is_ws_request req.headers = true) :
    proxy_handler send backendUrl req =
      .ws (ws_protocols req.headers)
        (backend_ws_url backendUrl ++ req.pathQuery) req.headers ∧
    (∀ v, headerGet req.headers "sec-websocket-protocol" = some v →
      ws_protocols req.headers = (rustSplitComma v).map rustTrim) ∧
    (headerGet req.headers "sec-websocket-protocol" = none →
      ws_protocols req.headers = []) ∧
    (rustStartsWith backendUrl "http://" = true →
      backend_ws_url backendUrl ++ req.pathQuery =
        ("ws://" ++ backendUrl.drop 7) ++ req.pathQuery) ∧
    (rustStartsWith backendUrl "https://" = true →
      backend_ws_url backendUrl ++ req.pathQuery =
        ("wss://" ++ backendUrl.drop 8) ++ req.pathQuery) := by
  refine ⟨?_, ?_, ?_, ?_, ?_⟩
  · unfold proxy_handler
    rw [hws]
    simp
  · intro v hv
    unfold ws_protocols
    rw [hv]
  · intro hv
    unfold ws_protocols
    rw [hv]
  · intro hh
    unfold backend_ws_url
    rw [http_prefix_not_https backendUrl hh, hh]
    simp
  · intro hh
    unfold backend_ws_url
    rw [hh]
    simp

theorem ws_upgrade_protocols_and_backend_dial_witness :
    proxy_handler (fun _ => Except.error ConnError.other)
      "http://127.0.0.1:4569"
      ⟨"GET", "/api/v1?x=1",
        [("upgrade", "WebSocket"), ("sec-websocket-protocol", "v1, v2")],
        []⟩ =
      .ws ["v1", "v2"] "ws://127.0.0.1:4569/api/v1?x=1"
        [("upgrade", "WebSocket"), ("sec-websocket-protocol", "v1, v2")] := by
  rw [(ws_upgrade_protocols_and_backend_dial _ _ _ (by decide)).1]
  decide

/-- C5: whenever any required configuration string (backend host, java
runtime URL, aidoku index URL, aidoku cache path, database path, downloads
path, local-manga path, local-anime path, or a non-empty migrate path)
contains an embedded NUL byte, `build_state` returns a configuration
error before invoking the backend start entry point — the same error for
every possible start oracle — and a successful `to_cstring` conversion
never truncates: it preserves the entire string. -/
theorem nul_in_config_errors_before_start
    (env : BackendEnv) (config : Config)
    (hnul :
      hasNulByte (resolvedBackendHost env) = true ∨
      hasNulByte config.java_runtime_url = true ∨
      hasNulByte config.aidoku_index_url = true ∨
      hasNulByte config.aidoku_cache_path = true ∨
      hasNulByte config.db_path = true ∨
      hasNulByte config.downloads_path = true ∨
      hasNulByte config.local_manga_path = true ∨
      hasNulByte config.local_anime_path = true ∨
      (∃ m, config.migrate_path = some m ∧ m ≠ "" ∧ hasNulByte m = true)) :
    (∃ e, prepare_ffi_config env config = .error e ∧
      ∀ start, build_state start env config = .error e) ∧
    (∀ value label c, to_cstring value label = .ok c → c = value) := by
  constructor
  · cases hp : prepare_ffi_config env config with
    | ok fc =>
        exfalso
        obtain ⟨n1, n2, n3, n4, n5, n6, n7, n8, n9⟩ :=
          prepare_ok_no_nul env config fc hp
        rcases hnul with hx | hx | hx | hx | hx | hx | hx | hx |
          ⟨m, hm, hne, hx⟩
        · exact Bool.noConfusion (n1 ▸ hx)
        · exact Bool.noConfusion (n2 ▸ hx)
        · exact Bool.noConfusion (n3 ▸ hx)
        · exact Bool.noConfusion (n4 ▸ hx)
        · exact Bool.noConfusion (n5 ▸ hx)
        · exact Bool.noConfusion (n6 ▸ hx)
        · exact Bool.noConfusion (n7 ▸ hx)
        · exact Bool.noConfusion (n8 ▸ hx)
        · exact Bool.noConfusion ((n9 m hm hne) ▸ hx)
    | error e =>
        refine ⟨e, rfl, fun start => ?_⟩
        unfold build_state
        simp only [hp, bind, Except.bind]
  · intro value label c hc
    exact ((to_cstring_eq_ok value label c).mp hc).2

theorem nul_in_config_errors_before_start_witness :
    (prepare_ffi_config ⟨none, none⟩
        ⟨"127.0.0.1", 4568, "http://127.0.0.1:4566", false, "", true,
          "aidoku", "data\x00base.sqlite", none, true, 3600, "downloads",
          "local-manga", "local-anime"⟩).toOption = none := by
  obtain ⟨e, he, -⟩ :=
    (nul_in_config_errors_before_start ⟨none, none⟩
      ⟨"127.0.0.1", 4568, "http://127.0.0.1:4566", false, "", true,
        "aidoku", "data\x00base.sqlite", none, true, 3600, "downloads",
        "local-manga", "local-anime"⟩
      (Or.inr (Or.inr (Or.inr (Or.inr (Or.inl (by decide))))))).1
  rw [he]
  rfl

/-- C6: over the lifetime of a state built by `new_state` and shared
through its reference-counted server, the backend stop call runs exactly
once: never while references remain, exactly once at the last release for
a non-null handle, never for a null handle, and the handle is set to null
by teardown so a repeated teardown is a no-op. -/
theorem backend_stop_exactly_once_at_last_release
    (u : String) (h n k : Nat) (hn : 1 ≤ n) :
    (k < n → releaseArcTimes ⟨n, ⟨some h⟩⟩ k = []) ∧
    (n ≤ k → releaseArcTimes ⟨n, ⟨some h⟩⟩ k = [h]) ∧
    releaseArcTimes ⟨n, ⟨none⟩⟩ k = [] ∧
    (∀ s : EmbeddedServer, (dropEmbeddedServer s).2 = ⟨none⟩ ∧
      (dropEmbeddedServer (dropEmbeddedServer s).2).1 = []) ∧
    releaseArcTimes (new_state u (some h)).server 1 = [h] := by
  refine ⟨fun hk => releaseArcTimes_early h n k hk,
    fun hk => releaseArcTimes_full h n k hn hk,
    releaseArcTimes_none n k, ?_, ?_⟩
  · intro s
    cases hs : s.handle <;> simp [dropEmbeddedServer, hs]
  · exact releaseArcTimes_full h 1 1 le_rfl le_rfl

theorem backend_stop_exactly_once_at_last_release_witness :
    releaseArcTimes ⟨2, ⟨some 7⟩⟩ 2 = [7] :=
  (backend_stop_exactly_once_at_last_release "u" 7 2 2 (by decide)).2.1
    (by decide)

/-- C7: on the backend-facing WebSocket handshake, exactly those headers
among cookie, authorization, user-agent, sec-websocket-protocol and origin
that are present on the inbound request are copied, and every other
inbound header is dropped on that leg (the dial request keeps its own
base value for any name outside the allow-list). -/
theorem ws_dial_header_allowlist
    (inbound base : String → Option String) (name : String) :
    (name ∈ wsAllowedHeaderNames →
      copy_ws_headers inbound base name =
        match inbound name with
        | some v => some v
        | none => base name) ∧
    (name ∉ wsAllowedHeaderNames →
      copy_ws_headers inbound base name = base name) :=
  ⟨fun hm => copyHeadersFold_mem _ _ _ _ hm (by decide),
   fun hm => copyHeadersFold_not_mem _ _ _ _ hm⟩

theorem ws_dial_header_allowlist_witness :
    copy_ws_headers (fun nm => if nm = "cookie" then some "sid=1" else none)
      (fun _ => none) "cookie" = some "sid=1" := by
  rw [(ws_dial_header_allowlist
      (fun nm => if nm = "cookie" then some "sid=1" else none)
      (fun _ => none) "cookie").1 (by decide)]
  rfl

/-- C8 (counterexample): with listen port 65535 and no backend port
override, the default backend port computed by the source's
`saturating_add` is 65535, not the listen port plus one — the claim fails
at this input. -/
theorem default_backend_port_counterexample :
    resolvedBackendPort ⟨none, none⟩
        ⟨"127.0.0.1", 65535, "http://127.0.0.1:4566", false, "", true,
          "aidoku", "manatan.sqlite", none, true, 3600, "downloads",
          "local-manga", "local-anime"⟩ ≠ 65535 + 1 := by decide

/-- C8 (amended): when no explicit backend port is configured, the backend
port used both in the backend base URL and in the backend start
configuration equals the listen port plus one saturated at the u16
maximum, that is min(port + 1, 65535). -/
theorem default_backend_port_saturating
    (env : BackendEnv) (config : Config) (hp : env.backendPort = none) :
    resolvedBackendPort env config = min (config.port + 1) 65535 ∧
    resolvedBackendUrl env config =
      "http://" ++ resolvedBackendHost env ++ ":" ++
        toString (min (config.port + 1) 65535) ∧
    (∀ fc, prepare_ffi_config env config = .ok fc →
      fc.port = min (config.port + 1) 65535) := by
  have hport : resolvedBackendPort env config =
      min (config.port + 1) 65535 := by
    simp [resolvedBackendPort, saturating_add_one_u16, hp]
  refine ⟨hport, ?_, ?_⟩
  · unfold resolvedBackendUrl
    rw [hport]
  · intro fc hfc
    rw [prepare_ok_port env config fc hfc, hport]

theorem default_backend_port_saturating_witness :
    resolvedBackendPort ⟨none, none⟩
        ⟨"127.0.0.1", 4568, "http://127.0.0.1:4566", false, "", true,
          "aidoku", "manatan.sqlite", none, true, 3600, "downloads",
          "local-manga", "local-anime"⟩ = 4569 := by
  rw [(default_backend_port_saturating ⟨none, none⟩ _ rfl).1]
  decide

end Manatan
